import Mathlib

/-!
Verification of the EFA transport core of the Mooncake transfer engine:
`EfaContext` (efa_context.cpp) and `EfaEndPoint` (efa_endpoint.cpp).

The C++ code is shallowly embedded: provider (libfabric) calls whose outcome
depends on hardware are oracles supplied through environment records; the
member state mutated by each routine is threaded explicitly as a record.
-/

namespace Mooncake

/-- Modelled from the spec: the error kinds of §7 (the numeric error-code
header `common.h` with `ERR_CONTEXT` etc. is not part of the two translated
source files).  `ok` stands for the C return value 0; the other constructors
stand for the distinct nonzero error codes. -/
inductive Status where
  | ok
  | errContext
  | errEndpoint
  | errInvalidArgument
  | errRejectHandshake
  | transportErr (code : Int)
deriving DecidableEq, Repr

/-- Modelled from the spec: per-slice completion marks of `Transport::Slice`
(transport.h is not part of the translated sources; the spec's submission
contract speaks of slices "marked successful" / "failed"). -/
inductive SliceMark where
  | PENDING
  | SUCCESS
  | FAILED
deriving DecidableEq, Repr

/-- Modelled from the spec (§GLOSSARY "Slice"): a bounded unit of transfer
carrying a source address, a length, and remote target address/key, plus the
completion mark.  `id` distinguishes slice objects (the C++ code passes
slices by pointer). -/
structure Slice where
  id : Nat
  source_addr : Nat
  length : Nat
  dest_addr : Nat
  dest_rkey : Nat
  mark : SliceMark
deriving DecidableEq, Repr

/-- Modelled from the spec: `Transport::Slice::markSuccess` sets the slice's
completion mark to SUCCESS. -/
def Slice.markSuccess (sl : Slice) : Slice :=
  { sl with mark := SliceMark.SUCCESS }

/-! ## Hex encoding of hardware addresses

`EfaEndPoint::getLocalAddr` renders the opaque binary address as lowercase
hex, two digits per byte (`std::hex << std::setw(2) << std::setfill('0')`);
`EfaEndPoint::insertPeerAddr` decodes it back with `strtol(·, nullptr, 16)`
on two-character substrings. -/

/-- A byte of the opaque hardware address (`uint8_t`). -/
abbrev Byte := Fin 256

def toByte (x : Nat) : Byte := ⟨x % 256, Nat.mod_lt _ (by omega)⟩

/-- `getLocalAddr`'s rendering loop: each byte becomes two lowercase hex
digits (`Nat.digitChar` yields '0'-'9' then lowercase 'a'-'f'). -/
def bytesToHexChars : List Byte → List Char
  | [] => []
  | b :: rest =>
      Nat.digitChar (b.val / 16) :: Nat.digitChar (b.val % 16) :: bytesToHexChars rest

/-- The hex-digit recognition of `strtol(·, nullptr, 16)` for a single
character. -/
def hexDigitVal (c : Char) : Option Nat :=
  if '0' ≤ c ∧ c ≤ '9' then some (c.toNat - '0'.toNat)
  else if 'a' ≤ c ∧ c ≤ 'f' then some (c.toNat - 'a'.toNat + 10)
  else if 'A' ≤ c ∧ c ≤ 'F' then some (c.toNat - 'A'.toNat + 10)
  else none

/-- `strtol(s, nullptr, 16)` on a short substring: accumulate hex digits of
the longest valid prefix (the substrings fed to it carry no sign, whitespace
or base prefix). -/
def strtol16Aux (acc : Nat) : List Char → Nat
  | [] => acc
  | c :: cs =>
      match hexDigitVal c with
      | some d => strtol16Aux (acc * 16 + d) cs
      | none => acc

def strtol16 (cs : List Char) : Nat := strtol16Aux 0 cs

/-- `insertPeerAddr`'s decoding loop: `substr(i, 2)` steps of two characters,
each parsed with `strtol` base 16 and cast to `uint8_t`. -/
def hexCharsToBytes : List Char → List Byte
  | c1 :: c2 :: rest => toByte (strtol16 [c1, c2]) :: hexCharsToBytes rest
  | [c] => [toByte (strtol16 [c])]
  | [] => []

/-! ## Memory-region registry (EfaContext)

`mr_map_` is a `std::map<uint64_t, EfaMemoryRegionMeta>`; modelled as an
association list with at most one entry per key (`mapInsert` overwrites,
`mapErase` removes the entry). -/

/-- `EfaMemoryRegionMeta`: the registry entry. `mr` is the provider handle
(`none` = null pointer, `some h` identifies the handle, so that
`fi_mr_key(mr)` can be modelled as a function of `h`). -/
structure EfaMemoryRegionMeta where
  addr : Nat
  length : Nat
  mr : Option Nat
  key : Nat
deriving DecidableEq, Repr

abbrev MrMap := List (Nat × EfaMemoryRegionMeta)

def mrLookup (m : MrMap) (addr : Nat) : Option EfaMemoryRegionMeta :=
  match m.find? (fun e => e.1 = addr) with
  | some e => some e.2
  | none => none

def mrErase (m : MrMap) (addr : Nat) : MrMap :=
  m.filter (fun e => e.1 ≠ addr)

def mrInsert (m : MrMap) (addr : Nat) (v : EfaMemoryRegionMeta) : MrMap :=
  mrErase m addr ++ [(addr, v)]

/-- Oracle for the provider calls made by the memory registry:
whether `fi_mr_reg` succeeds for a region, which handle it produces, the
`fi_mr_key` of a handle, and whether `fi_close` on a region succeeds. -/
structure MrEnv where
  mr_reg_ok : Nat → Nat → Bool
  mr_handle : Nat → Nat → Nat
  fi_mr_key : Nat → Nat
  fi_close_ok : Nat → Bool

/-- `EfaContext::registerMemoryRegionInternal`: clamps the length to the
configured `max_mr_size`, normalizes access to local+remote read/write, and
registers with the provider; on success the meta holds the clamped length
and the provider key.  `cfg_max` is `globalConfig().max_mr_size` (modelled
from the spec: process-wide configuration, config.h not in the translated
sources). -/
def registerMemoryRegionInternal (cfg_max : Nat) (env : MrEnv) (addr length0 : Nat) :
    Status × Option EfaMemoryRegionMeta :=
  let length := if length0 > cfg_max then cfg_max else length0
  if env.mr_reg_ok addr length then
    let h := env.mr_handle addr length
    (Status.ok, some { addr := addr, length := length, mr := some h,
                       key := env.fi_mr_key h })
  else
    (Status.errContext, none)

/-- `EfaContext::registerMemoryRegion`: on internal success, record the meta
in `mr_map_` under the address. -/
def registerMemoryRegion (cfg_max : Nat) (env : MrEnv) (m : MrMap) (addr length : Nat) :
    Status × MrMap :=
  match registerMemoryRegionInternal cfg_max env addr length with
  | (Status.ok, some meta) => (Status.ok, mrInsert m addr meta)
  | (st, _) => (st, m)

/-- `EfaContext::unregisterMemoryRegion`: absent address is a no-op success;
a present entry with a live handle is closed (close failure returns a
context error and keeps the entry) and erased. -/
def unregisterMemoryRegion (env : MrEnv) (m : MrMap) (addr : Nat) : Status × MrMap :=
  match mrLookup m addr with
  | none => (Status.ok, m)
  | some meta =>
      match meta.mr with
      | some h =>
          if env.fi_close_ok h then (Status.ok, mrErase m addr)
          else (Status.errContext, m)
      | none => (Status.ok, mrErase m addr)

/-- `EfaContext::rkey`: stored key if the address has an entry with a live
handle, else the sentinel 0. -/
def rkey (m : MrMap) (addr : Nat) : Nat :=
  match mrLookup m addr with
  | some meta => match meta.mr with
    | some _ => meta.key
    | none => 0
  | none => 0

/-- `EfaContext::lkey`: `fi_mr_key` of the stored handle if the address has
an entry with a live handle, else the sentinel 0. -/
def lkey (env : MrEnv) (m : MrMap) (addr : Nat) : Nat :=
  match mrLookup m addr with
  | some meta => match meta.mr with
    | some h => env.fi_mr_key h
    | none => 0
  | none => 0

/-! ## Context-level submitPostSend (EfaContext::submitPostSend) -/

/-- `EfaContext::submitPostSend`: marks every non-null slice of the list as
successful and returns 0; no connectivity check, no provider call.  Slices
are pointers, hence `Option Slice` (`none` = null). -/
def EfaContext.submitPostSend (slice_list : List (Option Slice)) :
    Status × List (Option Slice) :=
  (Status.ok, slice_list.map (fun osl =>
    match osl with
    | some sl => some sl.markSuccess
    | none => none))

/-! ## EfaContext construction (EfaContext::construct)

The context's hardware handles are booleans (`true` = non-null pointer held);
`cq_list` mirrors `std::vector<std::shared_ptr<EfaCq>>`, each entry `true`
when the shared pointer holds an opened completion queue
(`resize` fills with null shared pointers). -/

structure EfaContextState where
  hints : Bool
  fi_info : Bool
  fabric : Bool
  domain : Bool
  av : Bool
  cq_list : List Bool
  has_endpoint_store : Bool
deriving DecidableEq, Repr

/-- A context as the constructor `EfaContext::EfaContext` leaves it: every
handle null. -/
def EfaContextState.fresh : EfaContextState :=
  { hints := false, fi_info := false, fabric := false, domain := false,
    av := false, cq_list := [], has_endpoint_store := false }

/-- Outcomes of the provider calls made by `EfaContext::construct`:
`fi_allocinfo`, `fi_getinfo`, `fi_fabric`, `fi_domain`, `fi_av_open`,
and `fi_cq_open` per completion-queue index. -/
structure CtorEnv where
  allocinfo_ok : Bool
  getinfo_ok : Bool
  fabric_ok : Bool
  domain_ok : Bool
  av_ok : Bool
  cq_ok : Nat → Bool

/-- The completion-queue loop of `EfaContext::construct`: `remaining` queues
left to open starting at index `i`; a `fi_cq_open` failure returns
`ERR_CONTEXT` at once, with no cleanup of any handle. -/
def constructCqs (env : CtorEnv) : Nat → Nat → EfaContextState → Status × EfaContextState
  | 0, _, s => (Status.ok, s)
  | remaining + 1, i, s =>
      if env.cq_ok i then
        constructCqs env remaining (i + 1) { s with cq_list := s.cq_list.set i true }
      else
        (Status.errContext, s)

/-- `EfaContext::construct`: acquires hints, provider info, fabric, domain,
address vector, then `num_cq_list` completion queues.  Each failure branch
performs exactly the releases the C++ performs there. -/
def EfaContext.construct (env : CtorEnv) (num_cq_list : Nat) (s0 : EfaContextState) :
    Status × EfaContextState :=
  let s := { s0 with has_endpoint_store := true }
  if !env.allocinfo_ok then
    (Status.errContext, { s with hints := false })
  else
    let s := { s with hints := true }
    if !env.getinfo_ok then
      (Status.errContext, { s with hints := false })
    else
      let s := { s with fi_info := true }
      if !env.fabric_ok then
        (Status.errContext, { s with fi_info := false, hints := false })
      else
        let s := { s with fabric := true }
        if !env.domain_ok then
          (Status.errContext, { s with fabric := false, fi_info := false, hints := false })
        else
          let s := { s with domain := true }
          if !env.av_ok then
            (Status.errContext, { s with domain := false, fabric := false,
                                         fi_info := false, hints := false })
          else
            let s := { s with av := true }
            constructCqs env num_cq_list 0
              { s with cq_list := List.replicate num_cq_list false }

/-- All hardware handles of a context are null/released. -/
def EfaContextState.allHandlesNull (s : EfaContextState) : Prop :=
  s.hints = false ∧ s.fi_info = false ∧ s.fabric = false ∧ s.domain = false ∧
  s.av = false ∧ ∀ cq ∈ s.cq_list, cq = false

instance (s : EfaContextState) : Decidable s.allHandlesNull := by
  unfold EfaContextState.allHandlesNull
  infer_instance

/-! ## Peer endpoint (EfaEndPoint)

Endpoint state as mutated by efa_endpoint.cpp.  The address vector belongs
to the owning context; it is carried here as the list of inserted binary
addresses, `peer_fi_addr` being the slot index of the resolved peer
(`none` = `FI_ADDR_UNSPEC`).  `handshakes_sent` is a ghost counter of calls
to the out-of-band handshake transport, used to observe that loopback sends
nothing. -/

inductive EpStatus where
  | INITIALIZING
  | UNCONNECTED
  | CONNECTED
deriving DecidableEq, Repr

structure EfaEndPointState where
  status : EpStatus
  ep : Bool
  tx_cq : Option Nat
  rx_cq : Option Nat
  peer_nic_path : String
  local_addr : List Byte
  peer_fi_addr : Option Nat
  av : List (List Byte)
  wr_depth : Nat
  max_wr_depth : Nat
  handshakes_sent : Nat
deriving DecidableEq, Repr

/-- An endpoint as `EfaEndPoint::EfaEndPoint` leaves it. -/
def EfaEndPointState.fresh : EfaEndPointState :=
  { status := EpStatus.INITIALIZING, ep := false, tx_cq := none, rx_cq := none,
    peer_nic_path := "", local_addr := [], peer_fi_addr := none, av := [],
    wr_depth := 0, max_wr_depth := 0, handshakes_sent := 0 }

/-- `TransferMetadata::HandShakeDesc`, restricted to the fields this
transport uses (spec §6): the declared paths and the free-form reply payload
carrying the sender's hex address. -/
structure HandShakeDesc where
  local_nic_path : String
  peer_nic_path : String
  reply_msg : String
deriving DecidableEq, Repr

/-- Result of one `fi_write` post. -/
inductive PostResult where
  | success
  | eagain
  | hardErr (code : Int)
deriving DecidableEq, Repr

def PostResult.isSuccess : PostResult → Bool
  | PostResult.success => true
  | _ => false

def PostResult.isEagain : PostResult → Bool
  | PostResult.eagain => true
  | _ => false

def PostResult.isHardErr : PostResult → Bool
  | PostResult.hardErr _ => true
  | _ => false

/-- Oracles for the collaborator calls of EfaEndPoint: `fi_av_insert`
success per binary address, the out-of-band `sendHandshake` (server name and
request in, status and reply descriptor out), and the `fi_write` outcome per
slice. -/
structure EpEnv where
  avInsertOk : List Byte → Bool
  sendHandshake : String → HandShakeDesc → Status × HandShakeDesc
  post : Slice → PostResult

/-- `connected()`: the atomic status equals CONNECTED (modelled from the
spec's state machine; the accessor lives in the header). -/
def EfaEndPointState.connected (s : EfaEndPointState) : Bool :=
  s.status = EpStatus.CONNECTED

/-- `EfaEndPoint::disconnectUnlocked`: clear the resolved peer address and
fall back to UNCONNECTED. -/
def disconnectUnlocked (s : EfaEndPointState) : EfaEndPointState :=
  { s with peer_fi_addr := none, status := EpStatus.UNCONNECTED }

/-- `EfaEndPoint::setPeerNicPath`: discard a live connection, then record
the peer path. -/
def setPeerNicPath (peer : String) (s : EfaEndPointState) : EfaEndPointState :=
  let s := if s.connected then disconnectUnlocked s else s
  { s with peer_nic_path := peer }

/-- `EfaEndPoint::getLocalAddr`: the local address as lowercase hex. -/
def getLocalAddr (s : EfaEndPointState) : String :=
  String.mk (bytesToHexChars s.local_addr)

/-- `EfaEndPoint::insertPeerAddr`: decode the hex string and insert the
binary address into the address vector; failure is an endpoint error and
leaves the state alone. -/
def insertPeerAddr (env : EpEnv) (s : EfaEndPointState) (peer_addr : String) :
    Status × EfaEndPointState :=
  let addr_bin := hexCharsToBytes peer_addr.data
  if env.avInsertOk addr_bin then
    (Status.ok, { s with av := s.av ++ [addr_bin], peer_fi_addr := some s.av.length })
  else
    (Status.errEndpoint, s)

/-- Split a character list at the first `'@'`: the part before it and the
part after it, or `none` when there is no `'@'`. -/
def splitAtSeparator : List Char → Option (List Char × List Char)
  | [] => none
  | c :: cs =>
      if c = '@' then some ([], cs)
      else
        match splitAtSeparator cs with
        | some (pre, post) => some (c :: pre, post)
        | none => none

/-- Modelled from the spec (§6): peer logical paths have the form
`"<server-identity>@<device-name>"`; this helper (defined outside the two
translated files) extracts the server identity before the first `'@'`,
empty when the separator is missing. -/
def getServerNameFromNicPath (p : String) : String :=
  match splitAtSeparator p.data with
  | some (pre, _) => String.mk pre
  | none => ""

/-- Modelled from the spec (§6): the device-name part of a peer logical
path (after the first `'@'`), empty when the separator is missing. -/
def getNicNameFromNicPath (p : String) : String :=
  match splitAtSeparator p.data with
  | some (_, post) => String.mk post
  | none => ""

/-- `EfaEndPoint::setupConnectionsByActive` on the endpoint of a context
whose own path is `nicPath`: no-op when connected; loopback self-insert when
the peer path equals the context's path; otherwise the handshake exchange. -/
def setupConnectionsByActive (env : EpEnv) (nicPath : String) (s : EfaEndPointState) :
    Status × EfaEndPointState :=
  if s.connected then
    (Status.ok, s)
  else if nicPath = s.peer_nic_path then
    let is := insertPeerAddr env s (getLocalAddr s)
    if is.1 ≠ Status.ok then is
    else (Status.ok, { is.2 with status := EpStatus.CONNECTED })
  else
    let local_desc : HandShakeDesc :=
      { local_nic_path := nicPath, peer_nic_path := s.peer_nic_path,
        reply_msg := getLocalAddr s }
    let peer_server_name := getServerNameFromNicPath s.peer_nic_path
    let peer_nic_name := getNicNameFromNicPath s.peer_nic_path
    if peer_server_name = "" ∨ peer_nic_name = "" then
      (Status.errInvalidArgument, s)
    else
      let s1 := { s with handshakes_sent := s.handshakes_sent + 1 }
      let rp := env.sendHandshake peer_server_name local_desc
      if rp.1 ≠ Status.ok then (rp.1, s1)
      else if rp.2.reply_msg = "" then (Status.errRejectHandshake, s1)
      else
        let is := insertPeerAddr env s1 rp.2.reply_msg
        if is.1 ≠ Status.ok then is
        else (Status.ok, { is.2 with status := EpStatus.CONNECTED })

/-- `EfaEndPoint::setupConnectionsByPassive`: discard a live connection,
validate the declared paths and the presence of the peer address, insert it,
fill the reply descriptor and connect; every rejection empties the reply
payload. -/
def setupConnectionsByPassive (env : EpEnv) (nicPath : String)
    (peer_desc local_desc : HandShakeDesc) (s : EfaEndPointState) :
    Status × HandShakeDesc × EfaEndPointState :=
  let s := if s.connected then disconnectUnlocked s else s
  if peer_desc.peer_nic_path ≠ nicPath ∨ peer_desc.local_nic_path ≠ s.peer_nic_path then
    (Status.errRejectHandshake, { local_desc with reply_msg := "" }, s)
  else if peer_desc.reply_msg = "" then
    (Status.errRejectHandshake, { local_desc with reply_msg := "" }, s)
  else
    let is := insertPeerAddr env s peer_desc.reply_msg
    if is.1 ≠ Status.ok then
      (is.1, { local_desc with reply_msg := "" }, is.2)
    else
      (Status.ok,
       { local_nic_path := nicPath, peer_nic_path := s.peer_nic_path,
         reply_msg := getLocalAddr s },
       { is.2 with status := EpStatus.CONNECTED })

/-! ## Endpoint construction and the submission loop -/

/-- Outcomes of the provider calls of `EfaEndPoint::construct`:
`fi_endpoint`, the three `fi_ep_bind`s, `fi_enable`, `fi_getname` (and the
local address the latter yields). -/
structure EpCtorEnv where
  ep_create_ok : Bool
  bind_av_ok : Bool
  bind_tx_ok : Bool
  bind_rx_ok : Bool
  enable_ok : Bool
  getname_ok : Bool
  getname_addr : List Byte

/-- `EfaEndPoint::construct`: one-time (fails when not INITIALIZING);
records the completion queue for both directions, creates/binds/enables the
provider endpoint, retrieves the self-address, and moves to UNCONNECTED. -/
def EfaEndPoint.construct (env : EpCtorEnv) (cq : Nat) (max_wr : Nat)
    (s : EfaEndPointState) : Status × EfaEndPointState :=
  if s.status ≠ EpStatus.INITIALIZING then
    (Status.errEndpoint, s)
  else
    let s := { s with tx_cq := some cq, rx_cq := some cq, max_wr_depth := max_wr }
    if !env.ep_create_ok then (Status.errEndpoint, s)
    else
      let s := { s with ep := true }
      if !env.bind_av_ok then (Status.errEndpoint, { s with ep := false })
      else if !env.bind_tx_ok then (Status.errEndpoint, { s with ep := false })
      else if !env.bind_rx_ok then (Status.errEndpoint, { s with ep := false })
      else if !env.enable_ok then (Status.errEndpoint, { s with ep := false })
      else if !env.getname_ok then (Status.errEndpoint, { s with ep := false })
      else
        (Status.ok, { s with local_addr := env.getname_addr,
                             status := EpStatus.UNCONNECTED })

/-- Output of the per-slice iteration of `EfaEndPoint::submitPostSend`:
the slices left in the input list, the slices appended to the failed list,
the slices marked successful (and detached from both lists), and how many
posts succeeded. -/
structure LoopOut where
  remaining : List Slice
  failed : List Slice
  succeeded : List Slice
  nSuccess : Nat
deriving DecidableEq, Repr

/-- The iterator loop of `EfaEndPoint::submitPostSend`: post each slice;
success marks it and erases it (counting one outstanding write), `-FI_EAGAIN`
keeps it in place, any other error moves it to the failed list. -/
def submitLoop (post : Slice → PostResult) : List Slice → LoopOut
  | [] => { remaining := [], failed := [], succeeded := [], nSuccess := 0 }
  | sl :: rest =>
      let lo := submitLoop post rest
      match post sl with
      | PostResult.success =>
          { lo with succeeded := sl.markSuccess :: lo.succeeded,
                    nSuccess := lo.nSuccess + 1 }
      | PostResult.eagain =>
          { lo with remaining := sl :: lo.remaining }
      | PostResult.hardErr _ =>
          { lo with failed := sl :: lo.failed }

/-- Everything `EfaEndPoint::submitPostSend` leaves behind: its return
status, the endpoint state, the two in/out slice lists, and (ghost) the
slices it marked successful. -/
structure SubmitOut where
  ret : Status
  state : EfaEndPointState
  slice_list : List Slice
  failed_slice_list : List Slice
  succeeded : List Slice
deriving DecidableEq, Repr

/-- The post-connection part of `EfaEndPoint::submitPostSend`: run the loop,
raise `wr_depth_` by the number of successful posts, append the new failures
to the caller's failed list, return 0. -/
def submitBody (env : EpEnv) (s : EfaEndPointState)
    (slice_list failed_slice_list : List Slice) : SubmitOut :=
  let lo := submitLoop env.post slice_list
  { ret := Status.ok,
    state := { s with wr_depth := s.wr_depth + lo.nSuccess },
    slice_list := lo.remaining,
    failed_slice_list := failed_slice_list ++ lo.failed,
    succeeded := lo.succeeded }

/-- `EfaEndPoint::submitPostSend`: when not connected, first try the active
establishment; on its failure every input slice moves to the failed list and
the establishment error is returned; otherwise the loop runs. -/
def EfaEndPoint.submitPostSend (env : EpEnv) (nicPath : String)
    (s : EfaEndPointState) (slice_list failed_slice_list : List Slice) : SubmitOut :=
  if !s.connected then
    let sc := setupConnectionsByActive env nicPath s
    if sc.1 ≠ Status.ok then
      { ret := sc.1, state := sc.2, slice_list := [],
        failed_slice_list := failed_slice_list ++ slice_list, succeeded := [] }
    else
      submitBody env sc.2 slice_list failed_slice_list
  else
    submitBody env s slice_list failed_slice_list

/-! ## Endpoint store and the context's endpoint factory -/

/-- `EfaEndpointStore`: map from peer path to endpoint (association list,
one entry per path; `add` overwrites as `endpoints_[path] = endpoint`
does). -/
abbrev EpStore := List (String × EfaEndPointState)

def storeGet (st : EpStore) (peer : String) : Option EfaEndPointState :=
  match st.find? (fun e => e.1 = peer) with
  | some e => some e.2
  | none => none

def storeAdd (st : EpStore) (peer : String) (ep : EfaEndPointState) : EpStore :=
  st.filter (fun e => e.1 ≠ peer) ++ [(peer, ep)]

/-- `EfaContext::endpoint`: get-or-create.  `cq_list` is the context's
completion-queue vector (entry `true` = non-null shared pointer); the store
is `none` when `endpoint_store_` is null.  A fresh endpoint is constructed
against the first completion queue only when the vector is nonempty and its
first entry non-null; construction failure yields null without insertion. -/
def EfaContext.endpoint (cenv : EpCtorEnv) (cq_list : List Bool)
    (store : Option EpStore) (peer_nic_path : String) :
    Option EfaEndPointState × Option EpStore :=
  match store with
  | none => (none, none)
  | some st =>
      match storeGet st peer_nic_path with
      | some ep => (some ep, some st)
      | none =>
          let new_ep := EfaEndPointState.fresh
          match cq_list.head? with
          | some true =>
              let rc := EfaEndPoint.construct cenv 0 0 new_ep
              if rc.1 ≠ Status.ok then
                (none, some st)
              else
                let ep'' := setPeerNicPath peer_nic_path rc.2
                (some ep'', some (storeAdd st peer_nic_path ep''))
          | _ =>
              let ep'' := setPeerNicPath peer_nic_path new_ep
              (some ep'', some (storeAdd st peer_nic_path ep''))

/-! ## Concrete fixtures used by witnesses and counterexamples -/

def mrEnvA : MrEnv :=
  { mr_reg_ok := fun _ _ => true, mr_handle := fun _ _ => 7,
    fi_mr_key := fun h => h + 2, fi_close_ok := fun _ => true }

def mrMapA : MrMap := [(5, { addr := 5, length := 10, mr := some 3, key := 9 })]

def ctorEnvAllOk : CtorEnv :=
  { allocinfo_ok := true, getinfo_ok := true, fabric_ok := true,
    domain_ok := true, av_ok := true, cq_ok := fun _ => true }

def ctorEnvCqFail : CtorEnv := { ctorEnvAllOk with cq_ok := fun _ => false }
def ctorEnvAllocFail : CtorEnv := { ctorEnvAllOk with allocinfo_ok := false }
def ctorEnvGetinfoFail : CtorEnv := { ctorEnvAllOk with getinfo_ok := false }
def ctorEnvFabricFail : CtorEnv := { ctorEnvAllOk with fabric_ok := false }
def ctorEnvDomainFail : CtorEnv := { ctorEnvAllOk with domain_ok := false }
def ctorEnvAvFail : CtorEnv := { ctorEnvAllOk with av_ok := false }

def mkSlice (i : Nat) : Slice :=
  { id := i, source_addr := 0, length := 0, dest_addr := 0, dest_rkey := 0,
    mark := SliceMark.PENDING }

def handshakeEmptyReply : HandShakeDesc :=
  { local_nic_path := "b@efa0", peer_nic_path := "a@efa0", reply_msg := "" }

def handshakeGoodReply : HandShakeDesc :=
  { local_nic_path := "b@efa0", peer_nic_path := "a@efa0", reply_msg := "0a0b" }

def envEmptyReply : EpEnv :=
  { avInsertOk := fun _ => true,
    sendHandshake := fun _ _ => (Status.ok, handshakeEmptyReply),
    post := fun _ => PostResult.success }

def envGoodReply : EpEnv :=
  { avInsertOk := fun _ => true,
    sendHandshake := fun _ _ => (Status.ok, handshakeGoodReply),
    post := fun _ => PostResult.success }

def envAlternating : EpEnv :=
  { avInsertOk := fun _ => true,
    sendHandshake := fun _ d => (Status.ok, d),
    post := fun sl =>
      if sl.id = 0 then PostResult.eagain
      else if sl.id = 1 then PostResult.success
      else PostResult.hardErr 5 }

def stateConnectedB : EfaEndPointState :=
  { EfaEndPointState.fresh with
    status := EpStatus.CONNECTED,
    peer_fi_addr := some 0,
    peer_nic_path := "b@efa0" }

def stateUnconnectedB : EfaEndPointState :=
  { EfaEndPointState.fresh with
    status := EpStatus.UNCONNECTED,
    peer_nic_path := "b@efa0" }

def stateLoopbackA : EfaEndPointState :=
  { EfaEndPointState.fresh with
    status := EpStatus.UNCONNECTED,
    peer_nic_path := "a@efa0",
    local_addr := [(171 : Byte), (5 : Byte)] }

def reqMismatched : HandShakeDesc :=
  { local_nic_path := "b@efa0", peer_nic_path := "c@efa9", reply_msg := "00" }

def replyDescIn : HandShakeDesc :=
  { local_nic_path := "x", peer_nic_path := "y", reply_msg := "zz" }

def epCtorEnvOk : EpCtorEnv :=
  { ep_create_ok := true, bind_av_ok := true, bind_tx_ok := true,
    bind_rx_ok := true, enable_ok := true, getname_ok := true,
    getname_addr := [] }

/-! ## Helper lemmas on the registry map -/

theorem mrLookup_mrErase_self (m : MrMap) (addr : Nat) :
    mrLookup (mrErase m addr) addr = none := by
  induction m with
  | nil => rfl
  | cons e rest ih =>
      by_cases h : e.1 = addr
      · simpa [mrErase, mrLookup, List.filter_cons, h] using ih
      · simpa [mrErase, mrLookup, List.filter_cons, List.find?, h] using ih

theorem mrLookup_mrInsert_self (m : MrMap) (addr : Nat) (v : EfaMemoryRegionMeta) :
    mrLookup (mrInsert m addr v) addr = some v := by
  unfold mrInsert
  induction m with
  | nil => simp [mrLookup, mrErase, List.find?]
  | cons e rest ih =>
      by_cases h : e.1 = addr
      · simpa [mrErase, mrLookup, List.filter_cons, h] using ih
      · simpa [mrErase, mrLookup, List.filter_cons, List.find?, h] using ih

/-! ## Helper lemmas: hex roundtrip, submission loop, active setup -/

set_option maxRecDepth 4096 in
theorem hexByte_roundtrip (b : Byte) :
    toByte (strtol16 [Nat.digitChar (b.val / 16), Nat.digitChar (b.val % 16)]) = b := by
  revert b
  decide

theorem hexCharsToBytes_bytesToHexChars (bs : List Byte) :
    hexCharsToBytes (bytesToHexChars bs) = bs := by
  induction bs with
  | nil => rfl
  | cons b rest ih =>
      simp [bytesToHexChars, hexCharsToBytes, hexByte_roundtrip, ih]

theorem hexCharsToBytes_getLocalAddr (s : EfaEndPointState) :
    hexCharsToBytes (getLocalAddr s).data = s.local_addr :=
  hexCharsToBytes_bytesToHexChars s.local_addr

theorem insertPeerAddr_ok (env : EpEnv) (s : EfaEndPointState) (pa : String)
    (h : env.avInsertOk (hexCharsToBytes pa.data) = true) :
    insertPeerAddr env s pa =
      (Status.ok, { s with av := s.av ++ [hexCharsToBytes pa.data],
                           peer_fi_addr := some s.av.length }) := by
  have h' : env.avInsertOk (hexCharsToBytes pa.data) = true := h
  simp [insertPeerAddr, h']

theorem insertPeerAddr_wr_depth (env : EpEnv) (s : EfaEndPointState) (pa : String) :
    ((insertPeerAddr env s pa).2).wr_depth = s.wr_depth := by
  unfold insertPeerAddr
  by_cases h : env.avInsertOk (hexCharsToBytes pa.data) = true
  · simp [h]
  · simp [h]

theorem setupActive_wr_depth (env : EpEnv) (nicPath : String) (s : EfaEndPointState) :
    ((setupConnectionsByActive env nicPath s).2).wr_depth = s.wr_depth := by
  unfold setupConnectionsByActive
  split_ifs <;> simp [insertPeerAddr_wr_depth] <;>
    split_ifs <;> simp [insertPeerAddr_wr_depth]

theorem submitLoop_spec (post : Slice → PostResult) (l : List Slice) :
    (submitLoop post l).remaining = l.filter (fun sl => (post sl).isEagain) ∧
    (submitLoop post l).failed = l.filter (fun sl => (post sl).isHardErr) ∧
    (submitLoop post l).succeeded =
      (l.filter (fun sl => (post sl).isSuccess)).map Slice.markSuccess ∧
    (submitLoop post l).nSuccess = l.countP (fun sl => (post sl).isSuccess) := by
  induction l with
  | nil => exact ⟨rfl, rfl, rfl, rfl⟩
  | cons sl rest ih =>
      obtain ⟨h1, h2, h3, h4⟩ := ih
      cases hp : post sl <;>
        simp [submitLoop, hp, List.filter_cons, List.countP_cons, h1, h2, h3, h4,
              PostResult.isEagain, PostResult.isSuccess, PostResult.isHardErr]

/-! ## Claim C9 -/

/-- C9: the context-level `EfaContext::submitPostSend` marks every non-null
slice of the list successful and returns 0 unconditionally; it reports no
failed and no retry-later slice. -/
theorem c9_context_submit_marks_all_success (slice_list : List (Option Slice)) :
    (EfaContext.submitPostSend slice_list).1 = Status.ok ∧
    (EfaContext.submitPostSend slice_list).2 =
      slice_list.map (Option.map Slice.markSuccess) ∧
    ∀ osl ∈ (EfaContext.submitPostSend slice_list).2, ∀ sl ∈ osl,
      sl.mark = SliceMark.SUCCESS := by
  refine ⟨rfl, ?_, ?_⟩
  · simp only [EfaContext.submitPostSend]
    exact List.map_congr_left (fun osl _ => by cases osl <;> rfl)
  · intro osl hosl sl hsl
    simp only [EfaContext.submitPostSend, List.mem_map] at hosl
    obtain ⟨x, _, hx⟩ := hosl
    cases x with
    | none => subst hx; cases hsl
    | some y =>
        subst hx
        cases hsl
        rfl

/-! ## Claim C6 -/

/-- C6: unregistering an absent address is a no-op success; after a
successful unregistration the entry is gone, `rkey` and `lkey` return the
sentinel 0 for that address, and a second unregister is a no-op success. -/
theorem c6_unregister_idempotent_sentinel (env : MrEnv) (m : MrMap) (addr : Nat)
    (h : (unregisterMemoryRegion env m addr).1 = Status.ok) :
    (mrLookup m addr = none → (unregisterMemoryRegion env m addr).2 = m) ∧
    rkey (unregisterMemoryRegion env m addr).2 addr = 0 ∧
    lkey env (unregisterMemoryRegion env m addr).2 addr = 0 ∧
    unregisterMemoryRegion env (unregisterMemoryRegion env m addr).2 addr =
      (Status.ok, (unregisterMemoryRegion env m addr).2) := by
  cases hm : mrLookup m addr with
  | none =>
      have hu : unregisterMemoryRegion env m addr = (Status.ok, m) := by
        simp [unregisterMemoryRegion, hm]
      rw [hu]
      exact ⟨fun _ => rfl, by simp [rkey, hm], by simp [lkey, hm],
        by simp [unregisterMemoryRegion, hm]⟩
  | some meta =>
      have hu : unregisterMemoryRegion env m addr = (Status.ok, mrErase m addr) := by
        cases hmr : meta.mr with
        | none => simp [unregisterMemoryRegion, hm, hmr]
        | some hdl =>
            by_cases hc : env.fi_close_ok hdl = true
            · simp [unregisterMemoryRegion, hm, hmr, hc]
            · exfalso
              simp [unregisterMemoryRegion, hm, hmr, hc] at h
      rw [hu]
      refine ⟨?_, ?_, ?_, ?_⟩
      · intro hn
        simp at hn
      · simp [rkey, mrLookup_mrErase_self]
      · simp [lkey, mrLookup_mrErase_self]
      · simp [unregisterMemoryRegion, mrLookup_mrErase_self]

/-- C6 witness: a map holding address 5 with a live handle; unregistering
succeeds, the keys read 0 and the second unregister is a no-op. -/
theorem c6_unregister_witness :
    rkey (unregisterMemoryRegion mrEnvA mrMapA 5).2 5 = 0 ∧
    lkey mrEnvA (unregisterMemoryRegion mrEnvA mrMapA 5).2 5 = 0 := by
  have h := c6_unregister_idempotent_sentinel mrEnvA mrMapA 5 (by decide)
  exact ⟨h.2.1, h.2.2.1⟩

/-! ## Claim C7 -/

/-- C7: a registration whose length exceeds the configured maximum is not
rejected for that reason; the recorded entry's length is the maximum, while
a request at or below the maximum keeps its length. -/
theorem c7_register_clamps_length (cfg_max : Nat) (env : MrEnv) (m : MrMap)
    (addr length : Nat)
    (h : env.mr_reg_ok addr (if length > cfg_max then cfg_max else length) = true) :
    (registerMemoryRegion cfg_max env m addr length).1 = Status.ok ∧
    ∃ meta,
      mrLookup (registerMemoryRegion cfg_max env m addr length).2 addr = some meta ∧
      meta.length = (if length > cfg_max then cfg_max else length) ∧
      (length > cfg_max → meta.length = cfg_max) ∧
      (length ≤ cfg_max → meta.length = length) := by
  have hreg : registerMemoryRegion cfg_max env m addr length =
      (Status.ok, mrInsert m addr
        { addr := addr,
          length := if length > cfg_max then cfg_max else length,
          mr := some (env.mr_handle addr (if length > cfg_max then cfg_max else length)),
          key := env.fi_mr_key
            (env.mr_handle addr (if length > cfg_max then cfg_max else length)) }) := by
    simp [registerMemoryRegion, registerMemoryRegionInternal, h]
  rw [hreg]
  exact ⟨rfl, _, mrLookup_mrInsert_self m addr _, rfl,
    fun hgt => by simp [hgt], fun hle => by simp [Nat.not_lt.mpr hle]⟩

/-- C7 witness: with maximum 100, a request of length 1000 is recorded with
length 100, and a request of length 60 keeps 60. -/
theorem c7_register_clamps_witness :
    (registerMemoryRegion 100 mrEnvA [] 8 1000).1 = Status.ok ∧
    (registerMemoryRegion 100 mrEnvA [] 8 60).1 = Status.ok := by
  exact ⟨(c7_register_clamps_length 100 mrEnvA [] 8 1000 (by decide)).1,
         (c7_register_clamps_length 100 mrEnvA [] 8 60 (by decide)).1⟩

/-! ## Claim C1 -/

/-- C1 (code-bug evaluation): when every provider step succeeds except
`fi_cq_open`, `EfaContext::construct` returns the context error but leaves
`hints_`, `fi_info_`, `fabric_`, `domain_`, `av_` acquired — the handles are
not all released, violating the all-or-nothing invariant; by contrast the
failure paths of every earlier step do leave every handle null. -/
theorem c1_construct_cq_failure_not_torn_down :
    (EfaContext.construct ctorEnvCqFail 1 EfaContextState.fresh).1 = Status.errContext ∧
    (EfaContext.construct ctorEnvCqFail 1 EfaContextState.fresh).2.fabric = true ∧
    ¬ (EfaContext.construct ctorEnvCqFail 1 EfaContextState.fresh).2.allHandlesNull ∧
    (EfaContext.construct ctorEnvAllocFail 1 EfaContextState.fresh).2.allHandlesNull ∧
    (EfaContext.construct ctorEnvGetinfoFail 1 EfaContextState.fresh).2.allHandlesNull ∧
    (EfaContext.construct ctorEnvFabricFail 1 EfaContextState.fresh).2.allHandlesNull ∧
    (EfaContext.construct ctorEnvDomainFail 1 EfaContextState.fresh).2.allHandlesNull ∧
    (EfaContext.construct ctorEnvAvFail 1 EfaContextState.fresh).2.allHandlesNull := by
  decide

/-! ## Claim C2 -/

/-- C2: on a connected endpoint, `EfaEndPoint::submitPostSend` leaves the
queue-full (`-FI_EAGAIN`) slices in the input list unmarked, marks each
successfully posted slice successful and removes it (raising the
outstanding-work counter by exactly the number of successful posts), moves
each hard-error slice to the failed list, and returns success after the
whole traversal. -/
theorem c2_submit_connected_per_slice (env : EpEnv) (nicPath : String)
    (s : EfaEndPointState) (slice_list failed_slice_list : List Slice)
    (h : s.status = EpStatus.CONNECTED) :
    (EfaEndPoint.submitPostSend env nicPath s slice_list failed_slice_list).ret =
      Status.ok ∧
    (EfaEndPoint.submitPostSend env nicPath s slice_list failed_slice_list).slice_list =
      slice_list.filter (fun sl => (env.post sl).isEagain) ∧
    (EfaEndPoint.submitPostSend env nicPath s slice_list
        failed_slice_list).failed_slice_list =
      failed_slice_list ++ slice_list.filter (fun sl => (env.post sl).isHardErr) ∧
    (EfaEndPoint.submitPostSend env nicPath s slice_list failed_slice_list).succeeded =
      (slice_list.filter (fun sl => (env.post sl).isSuccess)).map Slice.markSuccess ∧
    (EfaEndPoint.submitPostSend env nicPath s slice_list
        failed_slice_list).state.wr_depth =
      s.wr_depth + slice_list.countP (fun sl => (env.post sl).isSuccess) ∧
    ∀ sl ∈ (EfaEndPoint.submitPostSend env nicPath s slice_list
        failed_slice_list).succeeded, sl.mark = SliceMark.SUCCESS := by
  have hc : s.connected = true := by
    simp [EfaEndPointState.connected, h]
  have hb : EfaEndPoint.submitPostSend env nicPath s slice_list failed_slice_list =
      submitBody env s slice_list failed_slice_list := by
    simp [EfaEndPoint.submitPostSend, hc]
  rw [hb]
  obtain ⟨l1, l2, l3, l4⟩ := submitLoop_spec env.post slice_list
  refine ⟨rfl, l1, ?_, l3, ?_, ?_⟩
  · exact congrArg (fun t => failed_slice_list ++ t) l2
  · exact congrArg (fun t => s.wr_depth + t) l4
  · intro sl hsl
    have hsl' : sl ∈ (submitLoop env.post slice_list).succeeded := hsl
    rw [l3] at hsl'
    obtain ⟨x, _, hx⟩ := List.mem_map.mp hsl'
    rw [← hx]
    rfl

/-- C2 witness: an alternating queue-full / success / hard-error batch on a
connected endpoint: exactly one post succeeds, so the counter rises by 1. -/
theorem c2_submit_connected_per_slice_witness :
    (EfaEndPoint.submitPostSend envAlternating "a@efa0" stateConnectedB
        [mkSlice 0, mkSlice 1, mkSlice 2] []).state.wr_depth = 1 ∧
    (EfaEndPoint.submitPostSend envAlternating "a@efa0" stateConnectedB
        [mkSlice 0, mkSlice 1, mkSlice 2] []).slice_list = [mkSlice 0] := by
  have h := c2_submit_connected_per_slice envAlternating "a@efa0" stateConnectedB
      [mkSlice 0, mkSlice 1, mkSlice 2] [] rfl
  exact ⟨h.2.2.2.2.1.trans (by decide), h.2.1.trans (by decide)⟩

/-! ## Claim C3 -/

/-- C3: `EfaEndPoint::submitPostSend` on an unconnected endpoint whose
active establishment fails moves every input slice to the failed list,
clears the input list, posts nothing, and returns the establishment
error. -/
theorem c3_submit_unconnected_establishment_failure (env : EpEnv)
    (nicPath : String) (s : EfaEndPointState)
    (slice_list failed_slice_list : List Slice)
    (h1 : s.status ≠ EpStatus.CONNECTED)
    (h2 : (setupConnectionsByActive env nicPath s).1 ≠ Status.ok) :
    (EfaEndPoint.submitPostSend env nicPath s slice_list failed_slice_list).ret =
      (setupConnectionsByActive env nicPath s).1 ∧
    (EfaEndPoint.submitPostSend env nicPath s slice_list
        failed_slice_list).slice_list = [] ∧
    (EfaEndPoint.submitPostSend env nicPath s slice_list
        failed_slice_list).failed_slice_list = failed_slice_list ++ slice_list ∧
    (EfaEndPoint.submitPostSend env nicPath s slice_list
        failed_slice_list).succeeded = [] ∧
    (EfaEndPoint.submitPostSend env nicPath s slice_list
        failed_slice_list).state.wr_depth = s.wr_depth := by
  have hc : s.connected = false := by
    simp [EfaEndPointState.connected, h1]
  simp [EfaEndPoint.submitPostSend, hc, h2, setupActive_wr_depth]

/-- C3 witness: one slice submitted to an unconnected endpoint whose peer
answers the handshake with an empty address: the slice lands in the failed
list and the handshake-rejected error is returned. -/
theorem c3_submit_unconnected_establishment_failure_witness :
    (EfaEndPoint.submitPostSend envEmptyReply "a@efa0" stateUnconnectedB
        [mkSlice 0] []).ret = Status.errRejectHandshake ∧
    (EfaEndPoint.submitPostSend envEmptyReply "a@efa0" stateUnconnectedB
        [mkSlice 0] []).slice_list = [] ∧
    (EfaEndPoint.submitPostSend envEmptyReply "a@efa0" stateUnconnectedB
        [mkSlice 0] []).failed_slice_list = [mkSlice 0] := by
  have h := c3_submit_unconnected_establishment_failure envEmptyReply "a@efa0"
      stateUnconnectedB [mkSlice 0] [] (by decide) (by decide)
  exact ⟨h.1.trans (by decide), h.2.1, h.2.2.1⟩

/-! ## Claim C4 -/

/-- C4 counterexample: a mismatched passive handshake on an endpoint that is
already CONNECTED is rejected with an empty reply, but the endpoint state
does NOT stay unchanged: `setupConnectionsByPassive` disconnects it first
(status drops to UNCONNECTED, the resolved peer address is cleared). -/
theorem c4_passive_mismatch_counterexample :
    (setupConnectionsByPassive envGoodReply "a@efa0" reqMismatched replyDescIn
        stateConnectedB).1 = Status.errRejectHandshake ∧
    (setupConnectionsByPassive envGoodReply "a@efa0" reqMismatched replyDescIn
        stateConnectedB).2.1.reply_msg = "" ∧
    ¬ ((setupConnectionsByPassive envGoodReply "a@efa0" reqMismatched replyDescIn
        stateConnectedB).2.2 = stateConnectedB) ∧
    (setupConnectionsByPassive envGoodReply "a@efa0" reqMismatched replyDescIn
        stateConnectedB).2.2.status = EpStatus.UNCONNECTED := by
  decide

/-- C4 (amended): a mismatched passive handshake returns handshake-rejected
with an emptied reply descriptor; the endpoint state is unchanged when the
endpoint was not connected, while an already-connected endpoint is first
disconnected (peer address cleared, status UNCONNECTED) before the
rejection. -/
theorem c4_passive_mismatch_rejected (env : EpEnv) (nicPath : String)
    (peer_desc local_desc : HandShakeDesc) (s : EfaEndPointState)
    (hmis : peer_desc.peer_nic_path ≠ nicPath ∨
            peer_desc.local_nic_path ≠ s.peer_nic_path) :
    (setupConnectionsByPassive env nicPath peer_desc local_desc s).1 =
      Status.errRejectHandshake ∧
    (setupConnectionsByPassive env nicPath peer_desc local_desc s).2.1 =
      { local_desc with reply_msg := "" } ∧
    (s.status ≠ EpStatus.CONNECTED →
      (setupConnectionsByPassive env nicPath peer_desc local_desc s).2.2 = s) ∧
    (s.status = EpStatus.CONNECTED →
      (setupConnectionsByPassive env nicPath peer_desc local_desc s).2.2 =
        disconnectUnlocked s) := by
  by_cases hc : s.status = EpStatus.CONNECTED
  · have hcb : s.connected = true := by
      simp [EfaEndPointState.connected, hc]
    have hmis' : peer_desc.peer_nic_path ≠ nicPath ∨
        peer_desc.local_nic_path ≠ (disconnectUnlocked s).peer_nic_path := hmis
    simp only [setupConnectionsByPassive, hcb, if_true]
    rw [if_pos hmis']
    exact ⟨rfl, rfl, fun hn => absurd hc hn, fun _ => rfl⟩
  · have hcb : s.connected = false := by
      simp [EfaEndPointState.connected, hc]
    simp only [setupConnectionsByPassive, hcb, Bool.false_eq_true, if_false]
    rw [if_pos hmis]
    exact ⟨rfl, rfl, fun _ => rfl, fun hn => absurd hn hc⟩

/-- C4 witness: the same mismatched request against an endpoint that was
not connected: rejected, empty reply, state untouched. -/
theorem c4_passive_mismatch_rejected_witness :
    (setupConnectionsByPassive envGoodReply "a@efa0" reqMismatched replyDescIn
        stateUnconnectedB).1 = Status.errRejectHandshake ∧
    (setupConnectionsByPassive envGoodReply "a@efa0" reqMismatched replyDescIn
        stateUnconnectedB).2.2 = stateUnconnectedB := by
  have h := c4_passive_mismatch_rejected envGoodReply "a@efa0" reqMismatched
      replyDescIn stateUnconnectedB (Or.inl (by decide))
  exact ⟨h.1, h.2.2.1 (by decide)⟩

/-! ## Claim C5 -/

/-- C5: `EfaEndPoint::setupConnectionsByActive` is a no-op success when
already connected; on an unconnected, non-loopback endpoint whose handshake
is delivered, an empty reply address yields handshake-rejected with the
state still UNCONNECTED (peer address unchanged), while a nonempty reply
whose address-vector insertion succeeds yields success with state
CONNECTED. -/
theorem c5_active_handshake_reply_cases (env : EpEnv) (nicPath : String)
    (s : EfaEndPointState) :
    (s.status = EpStatus.CONNECTED →
      setupConnectionsByActive env nicPath s = (Status.ok, s)) ∧
    (∀ pd : HandShakeDesc,
      s.status = EpStatus.UNCONNECTED →
      nicPath ≠ s.peer_nic_path →
      getServerNameFromNicPath s.peer_nic_path ≠ "" →
      getNicNameFromNicPath s.peer_nic_path ≠ "" →
      env.sendHandshake (getServerNameFromNicPath s.peer_nic_path)
          { local_nic_path := nicPath, peer_nic_path := s.peer_nic_path,
            reply_msg := getLocalAddr s } = (Status.ok, pd) →
      ((pd.reply_msg = "" →
          (setupConnectionsByActive env nicPath s).1 = Status.errRejectHandshake ∧
          (setupConnectionsByActive env nicPath s).2.status = EpStatus.UNCONNECTED ∧
          (setupConnectionsByActive env nicPath s).2.peer_fi_addr = s.peer_fi_addr) ∧
       (pd.reply_msg ≠ "" →
          env.avInsertOk (hexCharsToBytes pd.reply_msg.data) = true →
          (setupConnectionsByActive env nicPath s).1 = Status.ok ∧
          (setupConnectionsByActive env nicPath s).2.status = EpStatus.CONNECTED))) := by
  constructor
  · intro hc
    have hcb : s.connected = true := by
      simp [EfaEndPointState.connected, hc]
    simp [setupConnectionsByActive, hcb]
  · intro pd hu hnl hsrv hnic hsend
    have hcb : s.connected = false := by
      simp [EfaEndPointState.connected, hu]
    constructor
    · intro hempty
      have hres : setupConnectionsByActive env nicPath s =
          (Status.errRejectHandshake,
           { s with handshakes_sent := s.handshakes_sent + 1 }) := by
        simp [setupConnectionsByActive, hcb, hnl, hsrv, hnic, hsend, hempty]
      rw [hres]
      exact ⟨rfl, hu, rfl⟩
    · intro hnonempty hins
      have hinsr := insertPeerAddr_ok env
        { s with handshakes_sent := s.handshakes_sent + 1 } pd.reply_msg hins
      have hres : setupConnectionsByActive env nicPath s =
          (Status.ok,
           { { s with handshakes_sent := s.handshakes_sent + 1 } with
             av := ({ s with handshakes_sent := s.handshakes_sent + 1 }).av ++
               [hexCharsToBytes pd.reply_msg.data],
             peer_fi_addr :=
               some ({ s with handshakes_sent := s.handshakes_sent + 1 }).av.length,
             status := EpStatus.CONNECTED }) := by
        simp [setupConnectionsByActive, hcb, hnl, hsrv, hnic, hsend, hnonempty, hinsr]
      rw [hres]
      exact ⟨rfl, rfl⟩

/-- C5 witness: against a peer answering with an empty address the call is
rejected and the endpoint stays UNCONNECTED; against a peer answering with
a nonempty address it connects; on an already-connected endpoint it is a
no-op success. -/
theorem c5_active_handshake_reply_cases_witness :
    (setupConnectionsByActive envEmptyReply "a@efa0" stateUnconnectedB).1 =
      Status.errRejectHandshake ∧
    (setupConnectionsByActive envEmptyReply "a@efa0" stateUnconnectedB).2.status =
      EpStatus.UNCONNECTED ∧
    (setupConnectionsByActive envGoodReply "a@efa0" stateUnconnectedB).1 =
      Status.ok ∧
    (setupConnectionsByActive envGoodReply "a@efa0" stateUnconnectedB).2.status =
      EpStatus.CONNECTED ∧
    setupConnectionsByActive envGoodReply "a@efa0" stateConnectedB =
      (Status.ok, stateConnectedB) := by
  have he := c5_active_handshake_reply_cases envEmptyReply "a@efa0" stateUnconnectedB
  have hg := c5_active_handshake_reply_cases envGoodReply "a@efa0" stateUnconnectedB
  have hc := c5_active_handshake_reply_cases envGoodReply "a@efa0" stateConnectedB
  obtain ⟨h1, h2, _⟩ :=
    (he.2 handshakeEmptyReply rfl (by decide) (by decide) (by decide) rfl).1 rfl
  obtain ⟨h4, h5⟩ :=
    (hg.2 handshakeGoodReply rfl (by decide) (by decide) (by decide) rfl).2
      (by decide) rfl
  exact ⟨h1, h2, h4, h5, hc.1 rfl⟩

/-! ## Claim C8 -/

/-- C8: on an unconnected endpoint whose peer path equals the owning
context's own path, active establishment inserts the endpoint's own local
address into the address vector and transitions to CONNECTED without
sending any handshake message. -/
theorem c8_loopback_connects_without_handshake (env : EpEnv) (nicPath : String)
    (s : EfaEndPointState)
    (h1 : s.status = EpStatus.UNCONNECTED)
    (h2 : nicPath = s.peer_nic_path)
    (h3 : env.avInsertOk s.local_addr = true) :
    (setupConnectionsByActive env nicPath s).1 = Status.ok ∧
    (setupConnectionsByActive env nicPath s).2.status = EpStatus.CONNECTED ∧
    (setupConnectionsByActive env nicPath s).2.av = s.av ++ [s.local_addr] ∧
    (setupConnectionsByActive env nicPath s).2.peer_fi_addr = some s.av.length ∧
    (setupConnectionsByActive env nicPath s).2.handshakes_sent =
      s.handshakes_sent := by
  have hcb : s.connected = false := by
    simp [EfaEndPointState.connected, h1]
  have hdec : hexCharsToBytes (getLocalAddr s).data = s.local_addr :=
    hexCharsToBytes_getLocalAddr s
  have hins : insertPeerAddr env s (getLocalAddr s) =
      (Status.ok, { s with av := s.av ++ [s.local_addr],
                           peer_fi_addr := some s.av.length }) := by
    have h3' : env.avInsertOk (hexCharsToBytes (getLocalAddr s).data) = true := by
      rw [hdec]
      exact h3
    have := insertPeerAddr_ok env s (getLocalAddr s) h3'
    rw [hdec] at this
    exact this
  simp [setupConnectionsByActive, hcb, h2, hins]

/-- C8 witness: a loopback endpoint (peer path = own path "a@efa0") with a
two-byte local address connects, its address lands in the address vector,
and no handshake is ever sent. -/
theorem c8_loopback_connects_without_handshake_witness :
    (setupConnectionsByActive envGoodReply "a@efa0" stateLoopbackA).1 =
      Status.ok ∧
    (setupConnectionsByActive envGoodReply "a@efa0" stateLoopbackA).2.status =
      EpStatus.CONNECTED ∧
    (setupConnectionsByActive envGoodReply "a@efa0" stateLoopbackA).2.av =
      [[(171 : Byte), (5 : Byte)]] ∧
    (setupConnectionsByActive envGoodReply "a@efa0" stateLoopbackA).2.handshakes_sent
      = 0 := by
  have h := c8_loopback_connects_without_handshake envGoodReply "a@efa0"
      stateLoopbackA rfl rfl rfl
  exact ⟨h.1, h.2.1, h.2.2.1.trans (by decide), h.2.2.2.2.trans (by decide)⟩

/-! ## Claim C10 -/

/-- C10: for a peer path not in the store, when the completion-queue list is
empty or its first entry is null, `EfaContext::endpoint` creates an
endpoint, records the peer path, inserts it into the store and returns it —
without invoking `EfaEndPoint::construct`, so the endpoint stays
INITIALIZING with no provider endpoint object. -/
theorem c10_endpoint_no_cq_stays_initializing (cenv : EpCtorEnv)
    (cq_list : List Bool) (st : EpStore) (peer : String)
    (h1 : storeGet st peer = none)
    (h2 : cq_list.head? = none ∨ cq_list.head? = some false) :
    ∃ ep, (EfaContext.endpoint cenv cq_list (some st) peer).1 = some ep ∧
      ep.status = EpStatus.INITIALIZING ∧
      ep.ep = false ∧
      ep.peer_nic_path = peer ∧
      (EfaContext.endpoint cenv cq_list (some st) peer).2 =
        some (storeAdd st peer ep) := by
  refine ⟨setPeerNicPath peer EfaEndPointState.fresh, ?_, rfl, rfl, rfl, ?_⟩ <;>
    rcases h2 with h2 | h2 <;>
    simp [EfaContext.endpoint, h1, h2]

/-- C10 witness: an empty completion-queue list and an empty store: the
returned endpoint is INITIALIZING with no provider endpoint and is stored
under its peer path. -/
theorem c10_endpoint_no_cq_stays_initializing_witness :
    ∃ ep, (EfaContext.endpoint epCtorEnvOk [] (some []) "b@efa0").1 = some ep ∧
      ep.status = EpStatus.INITIALIZING ∧
      ep.ep = false ∧
      ep.peer_nic_path = "b@efa0" ∧
      (EfaContext.endpoint epCtorEnvOk [] (some []) "b@efa0").2 =
        some (storeAdd [] "b@efa0" ep) :=
  c10_endpoint_no_cq_stays_initializing epCtorEnvOk [] [] "b@efa0" rfl
    (Or.inl rfl)

end Mooncake
